import Mathlib

/-!
# Verification of the ditabase pipeline

Shallow embedding of the ditabase repository (tokenizer.py, parser.py,
compiler.py) and proofs about it.

Modelling conventions:
* Python strings are modelled by Lean `String` in the execution model.
  In the binary codec model (`compiler.py`'s `save_to_file` /
  `load_existing_data`) strings are modelled by their UTF-8 byte
  sequences (`List Nat`), so that `encode`/`decode` of text is the
  identity on the byte list and string equality coincides with byte
  list equality (UTF-8 encoding is injective).
* Python dicts are modelled by association lists in insertion order;
  `d[k] = v` is `dictInsert` (updates in place, appends fresh keys),
  `d.get(k)` is `pyGet` (first match), `del d[k]` removes the key.
* `uuid.uuid4()` is modelled by an oracle `gen : Nat → String` indexed
  by the number of generator calls made so far.
* Character predicates (`isalpha`, `isdigit`, `isspace`, `isupper`) are
  modelled on the ASCII fragment, which covers every lexeme the
  grammar's examples use.
-/

namespace Ditabase

/-- Python `str.isspace` on the ASCII whitespace characters. -/
def pyIsSpace (c : Char) : Bool :=
  c = ' ' || c = '\t' || c = '\n' || c = '\r' || c = '\x0b' || c = '\x0c'

/-- Continuation characters of an identifier lexeme: `isalnum() or '_'`
(tokenizer.py line 104). -/
def isIdentCont (c : Char) : Bool :=
  c.isAlphanum || c = '_'

/-- Python `str.isupper` (ASCII fragment): at least one cased character
and no lower-case cased character. -/
def pyIsUpper (s : String) : Bool :=
  s.toList.any (fun c => c.isAlpha) && s.toList.all (fun c => !c.isLower)

/-- Checks a digit run after the first digit: Python's integer literal
grammar allows single underscores between digits. -/
def pyDigitsRest : List Char → Bool
  | [] => true
  | ['_'] => false
  | '_' :: c :: rest => c.isDigit && pyDigitsRest rest
  | c :: rest => c.isDigit && pyDigitsRest rest

/-- A valid Python digit run: nonempty, starts with a digit, single
underscores only between digits. -/
def pyDigits : List Char → Bool
  | [] => false
  | c :: rest => c.isDigit && pyDigitsRest rest

/-- Numeric value of a digit run (underscores dropped). -/
def pyDigitsVal (l : List Char) : Nat :=
  (l.filter (fun c => c ≠ '_')).foldl (fun n c => n * 10 + (c.toNat - 48)) 0

/-- Strip leading and trailing ASCII whitespace. -/
def pyStrip (l : List Char) : List Char :=
  ((l.dropWhile pyIsSpace).reverse.dropWhile pyIsSpace).reverse

/-- Model of Python's `int(s)` on ASCII input: optional surrounding
whitespace, optional sign, then a digit run with optional single
underscores between digits. `none` models the `ValueError` it raises. -/
def pyInt (s : String) : Option Int :=
  match pyStrip s.toList with
  | '+' :: rest => if pyDigits rest then some (pyDigitsVal rest : Int) else none
  | '-' :: rest => if pyDigits rest then some (-(pyDigitsVal rest : Int)) else none
  | l => if pyDigits l then some (pyDigitsVal l : Int) else none

/-- Python `d.get(k)` / `d[k]` lookup on an association list (dicts are
modelled as association lists in insertion order): first matching key. -/
def pyGet {α β : Type} [DecidableEq α] : List (α × β) → α → Option β
  | [], _ => none
  | (k, v) :: rest, key => if k = key then some v else pyGet rest key

/-- Python `d[k] = v`: update the existing key in place (keeping its
position) or append a fresh key at the end. -/
def dictInsert {α β : Type} [DecidableEq α] : List (α × β) → α → β → List (α × β)
  | [], k, v => [(k, v)]
  | (k', v') :: rest, k, v =>
    if k' = k then (k, v) :: rest else (k', v') :: dictInsert rest k v

/-- Python `del d[k]`. -/
def dictErase {α β : Type} [DecidableEq α] (l : List (α × β)) (k : α) :
    List (α × β) :=
  l.filter (fun p => p.1 ≠ k)

/-- Python `k in d`. -/
def containsKey {α β : Type} [DecidableEq α] (l : List (α × β)) (k : α) : Bool :=
  (pyGet l k).isSome

/-- Python `needle in hay` on strings (substring containment). -/
def listContainsSub (needle : List Char) : List Char → Bool
  | [] => needle.isEmpty
  | c :: rest => needle.isPrefixOf (c :: rest) || listContainsSub needle rest

/-- `'UUID' in column.type`-style substring test on strings. -/
def strContainsSub (hay needle : String) : Bool :=
  listContainsSub needle.toList hay.toList

/-! ## Tokenizer (tokenizer.py)

`TokenType` lists exactly the members of the Python `TokenType` enum.
Note that the enum has `REMOVE`, `INT16`, `INT32`, `INT64`, `CHAR`,
`BOOL` but *no* `CHANGE`, `VALUE` or `OF` member. -/

inductive TokType where
  | NEW | TABLE | IF | EXISTS | IS | FALSE | TRUE | UNIC | MAIN | UUID
  | STR | PASSWORD | ADD | ITEM | TO | PRINT | DELETE | FROM | WHERE
  | REMOVE | INT16 | INT32 | INT64 | CHAR | BOOL
  | LEFT_BRACE | RIGHT_BRACE | COMMA | SEMICOLON | EQUALS
  | IDENTIFIER | STRING | EOF
deriving DecidableEq, Repr

/-- A token. `type` is an `Option` because `Tokenizer.identifier`
(tokenizer.py line 133) stores `keywords.get(text)`, which is Python
`None` for an all-upper-case lexeme absent from the keyword dict. -/
structure Tok where
  type : Option TokType
  value : String
deriving DecidableEq, Repr

/-- The keyword dict of `Tokenizer.identifier` (tokenizer.py lines
110-130). It has exactly these 19 entries; in particular `REMOVE`,
`CHANGE`, `VALUE`, `OF`, `INT16`, `INT32`, `INT64`, `CHAR`, `BOOL` are
absent. -/
def keywordTable : List (String × TokType) :=
  [("NEW", .NEW), ("TABLE", .TABLE), ("IF", .IF), ("EXISTS", .EXISTS),
   ("IS", .IS), ("FALSE", .FALSE), ("TRUE", .TRUE), ("UNIC", .UNIC),
   ("MAIN", .MAIN), ("UUID", .UUID), ("STR", .STR),
   ("PASSWORD", .PASSWORD), ("ADD", .ADD), ("ITEM", .ITEM), ("TO", .TO),
   ("PRINT", .PRINT), ("DELETE", .DELETE), ("FROM", .FROM),
   ("WHERE", .WHERE)]

/-- Classification of an identifier lexeme (tokenizer.py line 133):
`keywords.get(text) if text.isupper() else TokenType.IDENTIFIER`. -/
def classifyIdent (text : String) : Option TokType :=
  if pyIsUpper text then pyGet keywordTable text else some .IDENTIFIER

inductive LexErr where
  | unexpectedChar (c : Char)
  | unterminatedStr
  | outOfFuel
deriving DecidableEq, Repr

/-- The scanning loop of `Tokenizer.tokenize`/`scan_token`. Fuel-indexed
for executability; fuel `chars.length + 1` always suffices since each
step consumes at least one character. -/
def tokenizeBody : Nat → List Char → List Tok → Except LexErr (List Tok)
  | 0, _, _ => .error .outOfFuel
  | _ + 1, [], acc => .ok (acc ++ [⟨some .EOF, ""⟩])
  | fuel + 1, c :: rest, acc =>
    if pyIsSpace c then tokenizeBody fuel rest acc
    else if c.isAlpha then
      let lexRest := rest.takeWhile isIdentCont
      let text := String.mk (c :: lexRest)
      tokenizeBody fuel (rest.drop lexRest.length)
        (acc ++ [⟨classifyIdent text, text⟩])
    else if c = '"' then
      let content := rest.takeWhile (fun ch => ch ≠ '"')
      if content.length = rest.length then .error .unterminatedStr
      else tokenizeBody fuel (rest.drop (content.length + 1))
        (acc ++ [⟨some .STRING, String.mk content⟩])
    else if c = '{' then tokenizeBody fuel rest (acc ++ [⟨some .LEFT_BRACE, "\x7b"⟩])
    else if c = '}' then tokenizeBody fuel rest (acc ++ [⟨some .RIGHT_BRACE, "\x7d"⟩])
    else if c = ',' then tokenizeBody fuel rest (acc ++ [⟨some .COMMA, ","⟩])
    else if c = ';' then tokenizeBody fuel rest (acc ++ [⟨some .SEMICOLON, ";"⟩])
    else if c = '=' then tokenizeBody fuel rest (acc ++ [⟨some .EQUALS, "="⟩])
    else .error (.unexpectedChar c)

/-- `Tokenizer(source).tokenize()` (line/column bookkeeping, used only
in diagnostics, is omitted). -/
def tokenize (s : String) : Except LexErr (List Tok) :=
  tokenizeBody (s.toList.length + 1) s.toList []

/-! ## Statement model (parser.py dataclasses) -/

/-- `Column` dataclass (parser.py lines 5-13). -/
structure Column where
  name : String
  type : String
  constraints : List String
deriving DecidableEq, Repr

/-- The statement variants produced by the parser, one constructor per
dataclass (parser.py lines 20-60). -/
inductive Stmt where
  | createTable (table_name : String) (columns : List Column) (if_not_exists : Bool)
  | insert (table_name : String) (values : List (String × String))
  | printTable (table_name : String)
  | delete (table_name : String) (conditions : List (String × String))
  | deleteTable (table_name : String)
  | printItem (table_name : String) (column : String) (conditions : List (String × String))
  | removeTable (table_name : String)
  | changeValue (table_name column_name old_value new_value : String)
      (condition_column condition_value : Option String)
deriving DecidableEq, Repr

/-! ## Parser (parser.py)

The parser is modelled as functions consuming a token list from the
front; the Python implementation is an index walking the same list.
`PErr.attrMissing` models the `AttributeError` raised when the parse
loop evaluates `TokenType.CHANGE` (parser.py line 87), an enum member
that does not exist; because of it the
`raise SyntaxError("Unexpected command")` on line 90 is unreachable. -/

inductive PErr where
  | expected (msg : String)
  | invalidColumnType (v : String)
  | attrMissing (member : String)
deriving DecidableEq, Repr

/-- `Parser.check`: false at EOF, else compares the lookahead type. -/
def checkTok (toks : List Tok) (t : TokType) : Bool :=
  match toks with
  | [] => false
  | tok :: _ => if tok.type = some TokType.EOF then false else tok.type = some t

/-- `Parser.consume`. -/
def consumeTok (toks : List Tok) (t : TokType) (msg : String) :
    Except PErr (Tok × List Tok) :=
  if checkTok toks t then
    match toks with
    | tok :: rest => .ok (tok, rest)
    | [] => .error (.expected msg)
  else .error (.expected msg)

/-- `Parser.advance` (the EOF corner where Python's `advance` would
stand still is modelled by returning the EOF token itself; every use
site immediately rejects the token either way). -/
def advanceTok (toks : List Tok) : Tok × List Tok :=
  match toks with
  | tok :: rest => (tok, rest)
  | [] => (⟨some .EOF, ""⟩, [])

/-- The column-declaration loop of `Parser.create_table_statement`
(parser.py lines 110-129). -/
def parseColumns : Nat → List Tok → List Column →
    Except PErr (List Column × List Tok)
  | 0, _, _ => .error (.expected "fuel")
  | fuel + 1, toks, acc =>
    if checkTok toks .RIGHT_BRACE then .ok (acc, toks)
    else
      let (cs1, toks) :=
        if checkTok toks .UNIC then (["UNIQUE"], (advanceTok toks).2)
        else ([], toks)
      let (cs, toks) :=
        if checkTok toks .MAIN then (cs1 ++ ["PRIMARY"], (advanceTok toks).2)
        else (cs1, toks)
      let (typeTok, toks) := advanceTok toks
      if (["UUID", "STR", "PASSWORD", "INT16", "INT32", "INT64", "CHAR",
          "BOOL"].contains typeTok.value) then
        match consumeTok toks .IDENTIFIER "Expected column name" with
        | .error e => .error e
        | .ok (nameTok, toks) =>
          let acc := acc ++ [Column.mk nameTok.value typeTok.value cs]
          if checkTok toks .RIGHT_BRACE then parseColumns fuel toks acc
          else
            match consumeTok toks .COMMA "Expected comma between columns" with
            | .error e => .error e
            | .ok (_, toks) => parseColumns fuel toks acc
      else .error (.invalidColumnType typeTok.value)

/-- `Parser.create_table_statement` (parser.py lines 94-134), entered
after `NEW` has been consumed. -/
def parseCreateTable (toks : List Tok) : Except PErr (Stmt × List Tok) := do
  let (_, toks) ← consumeTok toks .TABLE "Expected TABLE after NEW"
  let (ine, toks) ←
    if checkTok toks .IF then do
      let toks := (advanceTok toks).2
      let (_, toks) ← consumeTok toks .EXISTS "Expected EXISTS after IF"
      let (_, toks) ← consumeTok toks .IS "Expected IS after EXISTS"
      if checkTok toks .FALSE then pure (true, (advanceTok toks).2)
      else if checkTok toks .TRUE then pure (false, (advanceTok toks).2)
      else .error (.expected "Expected TRUE or FALSE after IS")
    else pure (false, toks)
  let (_, toks) ← consumeTok toks .LEFT_BRACE "Expected left brace"
  let (cols, toks) ← parseColumns (toks.length + 1) toks []
  let (_, toks) ← consumeTok toks .RIGHT_BRACE "Expected right brace"
  let (nameTok, toks) ← consumeTok toks .IDENTIFIER "Expected table name"
  let (_, toks) ← consumeTok toks .SEMICOLON "Expected semicolon"
  pure (.createTable nameTok.value cols ine, toks)

/-- The key-value loop shared by `Parser.insert_statement` (lines
140-194) and `Parser.delete_statement` (lines 214-223). The inline
type validation in `insert_statement` is dead code: its helper
`_get_column_types` (lines 318-323) scans `self.tokens` — a list of
`Token`s, never `CreateTableStatement`s — so it always returns the
empty dict and no validation runs at parse time. -/
def parsePairs : Nat → List Tok → List (String × String) →
    Except PErr (List (String × String) × List Tok)
  | 0, _, _ => .error (.expected "fuel")
  | fuel + 1, toks, acc =>
    if checkTok toks .RIGHT_BRACE then .ok (acc, toks)
    else
      match consumeTok toks .IDENTIFIER "Expected field name" with
      | .error e => .error e
      | .ok (nameTok, toks) =>
        match consumeTok toks .EQUALS "Expected equals after field name" with
        | .error e => .error e
        | .ok (_, toks) =>
          match consumeTok toks .STRING "Expected string value" with
          | .error e => .error e
          | .ok (valTok, toks) =>
            let acc := dictInsert acc nameTok.value valTok.value
            if checkTok toks .RIGHT_BRACE then parsePairs fuel toks acc
            else
              match consumeTok toks .COMMA "Expected comma between values" with
              | .error e => .error e
              | .ok (_, toks) => parsePairs fuel toks acc

/-- `Parser.insert_statement` (parser.py lines 136-201), after `ADD`. -/
def parseInsert (toks : List Tok) : Except PErr (Stmt × List Tok) := do
  let (_, toks) ← consumeTok toks .ITEM "Expected ITEM after ADD"
  let (_, toks) ← consumeTok toks .LEFT_BRACE "Expected left brace after ITEM"
  let (values, toks) ← parsePairs (toks.length + 1) toks []
  let (_, toks) ← consumeTok toks .RIGHT_BRACE "Expected right brace after values"
  let (_, toks) ← consumeTok toks .TO "Expected TO after values"
  let (_, toks) ← consumeTok toks .TABLE "Expected TABLE after TO"
  let (nameTok, toks) ← consumeTok toks .IDENTIFIER "Expected table name"
  let (_, toks) ← consumeTok toks .SEMICOLON "Expected semicolon"
  pure (.insert nameTok.value values, toks)

/-- `Parser.delete_statement` (parser.py lines 210-231), after `DELETE`. -/
def parseDeleteItem (toks : List Tok) : Except PErr (Stmt × List Tok) := do
  let (_, toks) ← consumeTok toks .ITEM "Expected ITEM after DELETE"
  let (_, toks) ← consumeTok toks .LEFT_BRACE "Expected left brace after ITEM"
  let (conds, toks) ← parsePairs (toks.length + 1) toks []
  let (_, toks) ← consumeTok toks .RIGHT_BRACE "Expected right brace after conditions"
  let (_, toks) ← consumeTok toks .FROM "Expected FROM after conditions"
  let (_, toks) ← consumeTok toks .TABLE "Expected TABLE after FROM"
  let (nameTok, toks) ← consumeTok toks .IDENTIFIER "Expected table name"
  let (_, toks) ← consumeTok toks .SEMICOLON "Expected semicolon"
  pure (.delete nameTok.value conds, toks)

/-- `Parser.delete_table_statement` (parser.py lines 257-261). -/
def parseDeleteTable (toks : List Tok) : Except PErr (Stmt × List Tok) := do
  let (_, toks) ← consumeTok toks .TABLE "Expected TABLE after DELETE"
  let (nameTok, toks) ← consumeTok toks .IDENTIFIER "Expected table name"
  let (_, toks) ← consumeTok toks .SEMICOLON "Expected semicolon"
  pure (.deleteTable nameTok.value, toks)

/-- `Parser.remove_table_statement` (parser.py lines 251-255). -/
def parseRemoveTable (toks : List Tok) : Except PErr (Stmt × List Tok) := do
  let (_, toks) ← consumeTok toks .TABLE "Expected TABLE after REMOVE"
  let (nameTok, toks) ← consumeTok toks .IDENTIFIER "Expected table name"
  let (_, toks) ← consumeTok toks .SEMICOLON "Expected semicolon"
  pure (.removeTable nameTok.value, toks)

/-- `Parser.print_statement` (parser.py lines 203-208). -/
def parsePrintTable (toks : List Tok) : Except PErr (Stmt × List Tok) := do
  let (_, toks) ← consumeTok toks .TABLE "Expected TABLE after PRINT"
  let (nameTok, toks) ← consumeTok toks .IDENTIFIER "Expected table name"
  let (_, toks) ← consumeTok toks .SEMICOLON "Expected semicolon"
  pure (.printTable nameTok.value, toks)

/-- `Parser.print_item_statement` (parser.py lines 233-249). -/
def parsePrintItem (toks : List Tok) : Except PErr (Stmt × List Tok) := do
  let toks := (advanceTok toks).2
  let (colTok, toks) ← consumeTok toks .IDENTIFIER "Expected column name"
  let (_, toks) ← consumeTok toks .WHERE "Expected WHERE after column name"
  let (nameTok, toks) ← consumeTok toks .IDENTIFIER "Expected field name"
  let (_, toks) ← consumeTok toks .EQUALS "Expected equals after field name"
  let (valTok, toks) ← consumeTok toks .STRING "Expected string value"
  let (_, toks) ← consumeTok toks .FROM "Expected FROM after condition"
  let (_, toks) ← consumeTok toks .TABLE "Expected TABLE after FROM"
  let (tblTok, toks) ← consumeTok toks .IDENTIFIER "Expected table name"
  let (_, toks) ← consumeTok toks .SEMICOLON "Expected semicolon"
  pure (.printItem tblTok.value colTok.value [(nameTok.value, valTok.value)], toks)

/-- `Parser.parse` (parser.py lines 67-92). After the five implemented
dispatch branches fail, Python evaluates `self.match(TokenType.CHANGE)`
which raises `AttributeError` since the enum has no `CHANGE` member. -/
def parseProgram : Nat → List Tok → Except PErr (List Stmt)
  | 0, _ => .error (.expected "fuel")
  | fuel + 1, toks =>
    match toks with
    | [] => .ok []
    | tok :: rest =>
      if tok.type = some TokType.EOF then .ok []
      else if tok.type = some TokType.NEW then
        match parseCreateTable rest with
        | .error e => .error e
        | .ok (s, toks') =>
          (parseProgram fuel toks').map (fun ss => s :: ss)
      else if tok.type = some TokType.ADD then
        match parseInsert rest with
        | .error e => .error e
        | .ok (s, toks') =>
          (parseProgram fuel toks').map (fun ss => s :: ss)
      else if tok.type = some TokType.DELETE then
        match (if checkTok rest .TABLE then parseDeleteTable rest
               else parseDeleteItem rest) with
        | .error e => .error e
        | .ok (s, toks') =>
          (parseProgram fuel toks').map (fun ss => s :: ss)
      else if tok.type = some TokType.REMOVE then
        match parseRemoveTable rest with
        | .error e => .error e
        | .ok (s, toks') =>
          (parseProgram fuel toks').map (fun ss => s :: ss)
      else if tok.type = some TokType.PRINT then
        match (if checkTok rest .ITEM then parsePrintItem rest
               else parsePrintTable rest) with
        | .error e => .error e
        | .ok (s, toks') =>
          (parseProgram fuel toks').map (fun ss => s :: ss)
      else .error (.attrMissing "CHANGE")

/-- `Parser(tokens).parse()`. -/
def parse (toks : List Tok) : Except PErr (List Stmt) :=
  parseProgram (toks.length + 1) toks

/-! ## Store and statement execution (compiler.py)

`Compiler.tables` is a dict mapping table name to
`{'columns': ..., 'data': ...}`; rows are dicts from column name to
string value. Errors are Python `ValueError`s; the constructors record
which `raise` site produced them. -/

/-- A row: dict from column name to string value. -/
abbrev Row := List (String × String)

/-- One entry of `Compiler.tables`. -/
structure TableData where
  columns : List Column
  data : List Row
deriving DecidableEq, Repr

/-- `Compiler.tables`. -/
abbrev Store := List (String × TableData)

inductive CompErr where
  | tableExists (name : String)
  | tableNotFound (name : String)
  | boolInvalid (value : String)
  | charInvalid (value : String)
  | intInvalid (width : String) (value : String)
  | unicMainViolation (column value : String)
  | unicViolation (column value : String)
  | mainViolation (column value : String)
  | missingValue (column : String)
deriving DecidableEq, Repr

/-- Type validation of one supplied value (compiler.py lines 117-154).

For `BOOL`, the inner `raise ValueError` (when `int(value)` is outside
`[0, 1]`) is caught by the same `except ValueError` as a failed
conversion, so both paths yield the `boolInvalid` error; likewise for
the `INT16/32/64` branches, whose range message is replaced by the
`Invalid ... value` message of the outer handler. -/
def validateColumn (c : Column) (value : String) : Except CompErr Unit :=
  if c.type = "BOOL" then
    match pyInt value with
    | some n => if n = 0 ∨ n = 1 then .ok () else .error (.boolInvalid value)
    | none => .error (.boolInvalid value)
  else if c.type = "CHAR" then
    if value.length = 1 then .ok () else .error (.charInvalid value)
  else if c.type = "INT16" then
    match pyInt value with
    | some n =>
      if n < -32768 ∨ n > 32767 then .error (.intInvalid "INT16" value)
      else .ok ()
    | none => .error (.intInvalid "INT16" value)
  else if c.type = "INT32" then
    match pyInt value with
    | some n =>
      if n < -2147483648 ∨ n > 2147483647 then .error (.intInvalid "INT32" value)
      else .ok ()
    | none => .error (.intInvalid "INT32" value)
  else if c.type = "INT64" then
    match pyInt value with
    | some n =>
      if n < -9223372036854775808 ∨ n > 9223372036854775807 then
        .error (.intInvalid "INT64" value)
      else .ok ()
    | none => .error (.intInvalid "INT64" value)
  else .ok ()

/-- The type-validation loop of `Compiler.insert_data` (compiler.py
lines 112-154): for each schema column, validate the supplied value if
one is present. -/
def validateTypes : List Column → List (String × String) → Except CompErr Unit
  | [], _ => .ok ()
  | c :: rest, values =>
    match pyGet values c.name with
    | some v =>
      match validateColumn c v with
      | .ok () => validateTypes rest values
      | .error e => .error e
    | none => validateTypes rest values

/-- `sum(1 for row in table['data'] if row.get(column.name) == value)`
(compiler.py lines 160-161). -/
def rowCount (rows : List Row) (name value : String) : Nat :=
  rows.countP (fun row => pyGet row name = some value)

/-- The constraint check for one supplied column (compiler.py lines
159-171). -/
def checkColConstraint (c : Column) (value : String) (rows : List Row) :
    Except CompErr Unit :=
  let cnt := rowCount rows c.name value
  let is_unic := c.constraints.contains "UNIQUE"
  let is_main := c.constraints.contains "PRIMARY"
  if is_unic && is_main && decide (1 ≤ cnt) then
    .error (.unicMainViolation c.name value)
  else if is_unic && decide (2 ≤ cnt) then
    .error (.unicViolation c.name value)
  else if is_main && decide (10 ≤ cnt) then
    .error (.mainViolation c.name value)
  else .ok ()

/-- The constraint loop of `Compiler.insert_data` (compiler.py lines
156-171). -/
def checkConstraints : List Column → List Row → List (String × String) →
    Except CompErr Unit
  | [], _, _ => .ok ()
  | c :: rest, rows, values =>
    match pyGet values c.name with
    | some v =>
      match checkColConstraint c v rows with
      | .ok () => checkConstraints rest rows values
      | .error e => .error e
    | none => checkConstraints rest rows values

/-- `'UUID' in column.type and 'PRIMARY' in column.constraints`
(compiler.py line 176). -/
def uuidPrimary (c : Column) : Bool :=
  strContainsSub c.type "UUID" && c.constraints.contains "PRIMARY"

/-- The row-building loop of `Compiler.insert_data` (compiler.py lines
173-183). `gen` is the uuid4 oracle and `k` the number of oracle calls
made so far; the built row accumulates by dict assignment. -/
def buildRow (gen : Nat → String) :
    List Column → List (String × String) → Row → Nat →
    Except CompErr (Row × Nat)
  | [], _, acc, k => .ok (acc, k)
  | c :: rest, values, acc, k =>
    if uuidPrimary c then
      buildRow gen rest values (dictInsert acc c.name (gen k)) (k + 1)
    else
      match pyGet values c.name with
      | some v => buildRow gen rest values (dictInsert acc c.name v) k
      | none => .error (.missingValue c.name)

/-- `Compiler.insert_data` (compiler.py lines 106-183). -/
def insert_data (gen : Nat → String) (store : Store) (k : Nat)
    (table_name : String) (values : List (String × String)) :
    Except CompErr (Store × Nat) :=
  match pyGet store table_name with
  | none => .error (.tableNotFound table_name)
  | some tbl =>
    match validateTypes tbl.columns values with
    | .error e => .error e
    | .ok () =>
      match checkConstraints tbl.columns tbl.data values with
      | .error e => .error e
      | .ok () =>
        match buildRow gen tbl.columns values [] k with
        | .error e => .error e
        | .ok (row, k') =>
          .ok (dictInsert store table_name
                ⟨tbl.columns, tbl.data ++ [row]⟩, k')

/-- Row matching used by delete and print-item:
`all(row.get(k) == v for k, v in conditions.items())`. -/
def rowMatches (row : Row) (conds : List (String × String)) : Bool :=
  conds.all (fun p => pyGet row p.1 = some p.2)

/-- `Compiler.delete_data` (compiler.py lines 253-264). -/
def delete_data (store : Store) (table_name : String)
    (conds : List (String × String)) : Except CompErr Store :=
  match pyGet store table_name with
  | none => .error (.tableNotFound table_name)
  | some tbl =>
    .ok (dictInsert store table_name
          ⟨tbl.columns, tbl.data.filter (fun row => !rowMatches row conds)⟩)

/-- `Compiler.remove_table` (compiler.py lines 284-288). -/
def remove_table (store : Store) (table_name : String) :
    Except CompErr Store :=
  if containsKey store table_name then .ok (dictErase store table_name)
  else .error (.tableNotFound table_name)

/-- The execution state threaded through a batch: the store plus the
number of uuid4-oracle calls made so far. -/
abbrev ExecState := Store × Nat

/-- One iteration of the dispatch loop of `Compiler.compile`
(compiler.py lines 80-101). `printTable` and `printItem` only render
(their output is not modelled) but still fail on a missing table;
`changeValue` matches no `isinstance` branch and is silently skipped. -/
def execStmt (gen : Nat → String) (st : ExecState) :
    Stmt → Except CompErr ExecState
  | .createTable name cols ine =>
    if containsKey st.1 name then
      if ine then .ok st else .error (.tableExists name)
    else .ok (st.1 ++ [(name, ⟨cols, []⟩)], st.2)
  | .insert name values => insert_data gen st.1 st.2 name values
  | .delete name conds => (delete_data st.1 name conds).map (fun s => (s, st.2))
  | .deleteTable name => (remove_table st.1 name).map (fun s => (s, st.2))
  | .printTable name =>
    if containsKey st.1 name then .ok st else .error (.tableNotFound name)
  | .printItem name _ _ =>
    if containsKey st.1 name then .ok st else .error (.tableNotFound name)
  | .removeTable name => (remove_table st.1 name).map (fun s => (s, st.2))
  | .changeValue _ _ _ _ _ _ => .ok st

/-- Executing a whole batch, stopping at the first error
(`Compiler.compile`'s statement loop as a pure fold). -/
def execList (gen : Nat → String) : ExecState → List Stmt →
    Except CompErr ExecState
  | st, [] => .ok st
  | st, s :: rest =>
    match execStmt gen st s with
    | .ok st' => execList gen st' rest
    | .error e => .error e

/-- Executing a batch while keeping the in-memory state reached when an
error aborts the loop: in Python the exception propagates out of
`compile` but `self.tables` retains the effects of the statements that
preceded the failing one. -/
def runStmts (gen : Nat → String) : ExecState → List Stmt →
    ExecState × Option CompErr
  | st, [] => (st, none)
  | st, s :: rest =>
    match execStmt gen st s with
    | .ok st' => runStmts gen st' rest
    | .error e => (st, some e)

/-! ## Binary codec (compiler.py `save_to_file` / `load_existing_data`)

Strings are modelled by their UTF-8 byte sequences (`List Nat`), so the
`.encode('utf-8')` / `.decode('utf-8')` pair is the identity here. A
file is a byte list; `f.read(n)` returns *up to* `n` bytes
(`readRaw`), exactly as in Python, and only `struct.unpack` demands an
exact buffer size. -/

abbrev Bytes := List Nat

/-- Column as persisted: name, type, constraints as byte strings. -/
structure BColumn where
  name : Bytes
  type : Bytes
  constraints : List Bytes
deriving DecidableEq, Repr

/-- A persisted row: dict from column name to value, both byte strings. -/
abbrev BRow := List (Bytes × Bytes)

/-- A persisted table. -/
structure BTable where
  columns : List BColumn
  data : List BRow
deriving DecidableEq, Repr

/-- The persisted store: dict from table name to table. -/
abbrev BStore := List (Bytes × BTable)

/-- `struct.pack('!H', n)`: two big-endian bytes, or an error (`none`)
when the value does not fit. -/
def pack16 (n : Nat) : Option Bytes :=
  if n < 65536 then some [n / 256, n % 256] else none

/-- `struct.pack('!I', n)`: four big-endian bytes, or an error when the
value does not fit. -/
def pack32 (n : Nat) : Option Bytes :=
  if n < 4294967296 then
    some [n / 16777216, n / 65536 % 256, n / 256 % 256, n % 256]
  else none

/-- Length-prefixed constraints (compiler.py lines 217-221). -/
def encConstraints : List Bytes → Option Bytes
  | [] => some []
  | c :: rest => do
    let l ← pack16 c.length
    let r ← encConstraints rest
    pure (l ++ c ++ r)

/-- One column record (compiler.py lines 205-221). -/
def encColumn (c : BColumn) : Option Bytes := do
  let n ← pack16 c.name.length
  let t ← pack16 c.type.length
  let k ← pack16 c.constraints.length
  let cs ← encConstraints c.constraints
  pure (n ++ c.name ++ t ++ c.type ++ k ++ cs)

def encColumns : List BColumn → Option Bytes
  | [] => some []
  | c :: rest => do
    let b ← encColumn c
    let r ← encColumns rest
    pure (b ++ r)

/-- One row: one length-prefixed value per schema column, in schema
order, fetched by `row[col.name]` (compiler.py lines 227-232); a
missing key is Python's `KeyError`, modelled as `none`. -/
def encRow (columns : List BColumn) (row : BRow) : Option Bytes :=
  match columns with
  | [] => some []
  | c :: rest => do
    let v ← pyGet row c.name
    let l ← pack32 v.length
    let r ← encRow rest row
    pure (l ++ v ++ r)

def encRows (columns : List BColumn) : List BRow → Option Bytes
  | [] => some []
  | r :: rest => do
    let b ← encRow columns r
    let rs ← encRows columns rest
    pure (b ++ rs)

/-- One table record (compiler.py lines 194-232). -/
def encTable (name : Bytes) (t : BTable) : Option Bytes := do
  let nl ← pack16 name.length
  let cn ← pack16 t.columns.length
  let cols ← encColumns t.columns
  let rn ← pack32 t.data.length
  let rows ← encRows t.columns t.data
  pure (nl ++ name ++ cn ++ cols ++ rn ++ rows)

def encTables : BStore → Option Bytes
  | [] => some []
  | (name, t) :: rest => do
    let b ← encTable name t
    let r ← encTables rest
    pure (b ++ r)

/-- `b'DTB1'`. -/
def magicBytes : Bytes := [68, 84, 66, 49]

/-- `Compiler.save_to_file` viewed as a function from the store to the
bytes written (compiler.py lines 185-232). -/
def encodeStore (s : BStore) : Option Bytes := do
  let n ← pack32 s.length
  let ts ← encTables s
  pure (magicBytes ++ n ++ ts)

inductive DecErr where
  /-- `ValueError("Invalid .dtb file")` on a bad signature. -/
  | invalidFormat
  /-- `struct.error` from `unpack` on a short buffer. -/
  | structError
deriving DecidableEq, Repr

/-- `f.read(n)`: up to `n` bytes. -/
def readRaw (n : Nat) (s : Bytes) : Bytes × Bytes := (s.take n, s.drop n)

/-- `struct.unpack('!H', f.read(2))`. -/
def read16 : Bytes → Except DecErr (Nat × Bytes)
  | a :: b :: r => .ok (a * 256 + b, r)
  | _ => .error .structError

/-- `struct.unpack('!I', f.read(4))`. -/
def read32 : Bytes → Except DecErr (Nat × Bytes)
  | a :: b :: c :: d :: r => .ok (((a * 256 + b) * 256 + c) * 256 + d, r)
  | _ => .error .structError

/-- The constraint-reading loop (compiler.py lines 46-51). -/
def decConstraints : Nat → Bytes → Except DecErr (List Bytes × Bytes)
  | 0, s => .ok ([], s)
  | n + 1, s => do
    let (len, s) ← read16 s
    let (c, s) := readRaw len s
    let (cs, s) ← decConstraints n s
    pure (c :: cs, s)

/-- One column record (compiler.py lines 36-53). -/
def decColumn (s : Bytes) : Except DecErr (BColumn × Bytes) := do
  let (nl, s) ← read16 s
  let (name, s) := readRaw nl s
  let (tl, s) ← read16 s
  let (ty, s) := readRaw tl s
  let (k, s) ← read16 s
  let (cs, s) ← decConstraints k s
  pure (⟨name, ty, cs⟩, s)

def decColumns : Nat → Bytes → Except DecErr (List BColumn × Bytes)
  | 0, s => .ok ([], s)
  | n + 1, s => do
    let (c, s) ← decColumn s
    let (cs, s) ← decColumns n s
    pure (c :: cs, s)

/-- The per-row loop (compiler.py lines 60-65): `row = {}` then
`row[col.name] = value` per schema column. -/
def decRowAux : List BColumn → BRow → Bytes → Except DecErr (BRow × Bytes)
  | [], acc, s => .ok (acc, s)
  | c :: rest, acc, s => do
    let (vl, s) ← read32 s
    let (v, s) := readRaw vl s
    decRowAux rest (dictInsert acc c.name v) s

def decRows (columns : List BColumn) : Nat → Bytes →
    Except DecErr (List BRow × Bytes)
  | 0, s => .ok ([], s)
  | n + 1, s => do
    let (r, s) ← decRowAux columns [] s
    let (rs, s) ← decRows columns n s
    pure (r :: rs, s)

/-- One table record (compiler.py lines 26-70). -/
def decTable (s : Bytes) : Except DecErr ((Bytes × BTable) × Bytes) := do
  let (nl, s) ← read16 s
  let (name, s) := readRaw nl s
  let (nc, s) ← read16 s
  let (cols, s) ← decColumns nc s
  let (nr, s) ← read32 s
  let (rows, s) ← decRows cols nr s
  pure ((name, ⟨cols, rows⟩), s)

/-- The table-reading loop, threading `self.tables`: each fully read
table is assigned into the store *before* the next is read, so a
failure keeps the tables already loaded (partial load). The `Option
DecErr` is the exception the Python code raises at that point. -/
def decTables : Nat → Bytes → BStore → BStore × Option DecErr
  | 0, _, acc => (acc, none)
  | n + 1, s, acc =>
    match decTable s with
    | .error e => (acc, some e)
    | .ok ((name, t), s) => decTables n s (dictInsert acc name t)

/-- Reading a whole file into a store (compiler.py lines 16-70):
signature check, table count, then the table loop. Trailing bytes
after the last table are ignored, as in the source. -/
def loadBytes (bs : Bytes) (store : BStore) : BStore × Option DecErr :=
  let (sig, s) := readRaw 4 bs
  if sig = magicBytes then
    match read32 s with
    | .error e => (store, some e)
    | .ok (n, s) => decTables n s store
  else (store, some .invalidFormat)

/-- `Compiler.load_existing_data` (compiler.py lines 11-70): a missing
file (`none`) leaves the store untouched and raises nothing; an
existing file is decoded into the store. The `Option DecErr` component
is the exception raised, which `Compiler.compile` (lines 74-77)
catches and downgrades to a printed warning. -/
def load_existing_data (file : Option Bytes) (store : BStore) :
    BStore × Option DecErr :=
  match file with
  | none => (store, none)
  | some bs => loadBytes bs store

/-- `decode` as a function: the store produced by
`load_existing_data` into an empty compiler, or the raised error. -/
def decodeStore (bs : Bytes) : Except DecErr BStore :=
  match loadBytes bs [] with
  | (st, none) => .ok st
  | (_, some e) => .error e

/-! ## Front-end pipeline -/

inductive PipeErr where
  | lex (e : LexErr)
  | par (e : PErr)
deriving DecidableEq, Repr

/-- Tokenize-then-parse, the front half of `compile_ditabase` /
`DitabaseShell.execute_command` (main.py lines 36-45 and 55-76). -/
def parsePipeline (s : String) : Except PipeErr (List Stmt) :=
  match tokenize s with
  | .error e => .error (.lex e)
  | .ok toks =>
    match parse toks with
    | .error e => .error (.par e)
    | .ok ss => .ok ss

/-! ## Basic lemmas about the dict model -/

theorem pyGet_dictInsert_self {α β : Type} [DecidableEq α]
    (l : List (α × β)) (k : α) (v : β) :
    pyGet (dictInsert l k v) k = some v := by
  induction l with
  | nil => simp [dictInsert, pyGet]
  | cons p rest ih =>
    obtain ⟨k', v'⟩ := p
    by_cases h : k' = k
    · subst h; simp [dictInsert, pyGet]
    · simp [dictInsert, h, pyGet, ih]

theorem pyGet_dictInsert_ne {α β : Type} [DecidableEq α]
    (l : List (α × β)) (k k' : α) (v : β) (h : k ≠ k') :
    pyGet (dictInsert l k v) k' = pyGet l k' := by
  induction l with
  | nil => simp [dictInsert, pyGet, h]
  | cons p rest ih =>
    obtain ⟨k₀, v₀⟩ := p
    by_cases h₀ : k₀ = k
    · subst h₀; simp [dictInsert, pyGet, h]
    · simp only [dictInsert, if_neg h₀]
      by_cases h₁ : k₀ = k'
      · subst h₁; simp [pyGet]
      · simp [pyGet, h₁, ih]

theorem containsKey_iff_mem_keys {α β : Type} [DecidableEq α]
    (l : List (α × β)) (k : α) :
    containsKey l k = true ↔ k ∈ l.map Prod.fst := by
  induction l with
  | nil => simp [containsKey, pyGet]
  | cons p rest ih =>
    obtain ⟨k₀, v₀⟩ := p
    by_cases h : k₀ = k
    · subst h; simp [containsKey, pyGet]
    · simp only [containsKey, pyGet, if_neg h, List.map_cons, List.mem_cons]
      rw [← containsKey]
      simp [ih, Ne.symm h]

theorem dictInsert_eq_append {α β : Type} [DecidableEq α]
    (l : List (α × β)) (k : α) (v : β) (h : k ∉ l.map Prod.fst) :
    dictInsert l k v = l ++ [(k, v)] := by
  induction l with
  | nil => simp [dictInsert]
  | cons p rest ih =>
    obtain ⟨k₀, v₀⟩ := p
    simp only [List.map_cons, List.mem_cons] at h
    push_neg at h
    simp [dictInsert, Ne.symm h.1, ih h.2]

theorem pyGet_append_left {α β : Type} [DecidableEq α]
    (l r : List (α × β)) (k : α) (h : (pyGet l k).isSome) :
    pyGet (l ++ r) k = pyGet l k := by
  induction l with
  | nil => simp [pyGet] at h
  | cons p rest ih =>
    obtain ⟨k₀, v₀⟩ := p
    by_cases h₀ : k₀ = k
    · subst h₀; simp [pyGet]
    · simp only [pyGet, if_neg h₀] at h ⊢
      exact ih h

theorem pyGet_append_right {α β : Type} [DecidableEq α]
    (l r : List (α × β)) (k : α) (h : pyGet l k = none) :
    pyGet (l ++ r) k = pyGet r k := by
  induction l with
  | nil => simp [pyGet]
  | cons p rest ih =>
    obtain ⟨k₀, v₀⟩ := p
    by_cases h₀ : k₀ = k
    · subst h₀; simp [pyGet] at h
    · simp only [pyGet, if_neg h₀] at h ⊢
      exact ih h

/-- Counting matches over a replicated row list. -/
theorem countP_replicate {α : Type} (p : α → Bool) (n : Nat) (a : α) :
    (List.replicate n a).countP p = if p a then n else 0 := by
  induction n with
  | zero => simp
  | succ n ih =>
    rw [List.replicate_succ, List.countP_cons]
    by_cases h : p a <;> simp [h, ih]

/-! ## Claim C3 -/

/-- Claim C3 (counter-theorem): executing a `ChangeValue` statement
leaves the store (and the uuid counter) completely unchanged, for every
store and every choice of arguments — `Compiler.compile`'s dispatch
chain (compiler.py lines 80-101) has no `ChangeValueStatement` branch,
so the statement is silently skipped and no row is ever updated,
contradicting the claimed update semantics. -/
theorem C3_changeValue_is_ignored (gen : Nat → String) (st : ExecState)
    (t c ov nv : String) (cc cv : Option String) :
    execStmt gen st (.changeValue t c ov nv cc cv) = .ok st := rfl

/-! ## Claim C4 -/

/-- Claim C4 (counter-theorem): the full pipeline on `REMOVE TABLE
users;` fails while parsing — the tokenizer's keyword dict
(tokenizer.py lines 110-130) lacks `REMOVE`, so the all-upper-case
lexeme gets token type `None`; the parse dispatch then falls through
its five branches and crashes evaluating the nonexistent enum member
`TokenType.CHANGE` (parser.py line 87). `DELETE TABLE users;` parses
and executes, removing the table. The two forms are therefore not
observably equivalent, although `TokenType.REMOVE`,
`Parser.remove_table_statement` and `Compiler.remove_table` are all
fully implemented. -/
theorem C4_remove_table_broken :
    parsePipeline "REMOVE TABLE users;" = .error (.par (.attrMissing "CHANGE")) ∧
    parsePipeline "DELETE TABLE users;" = .ok [.deleteTable "users"] ∧
    execStmt (fun _ => "") ([("users", ⟨[], []⟩)], 0) (.deleteTable "users") =
      .ok ([], 0) :=
  ⟨rfl, rfl, rfl⟩

/-! ## Claim C8 -/

/-- Claim C8: if every statement of `pre` succeeds and the next
statement `s` fails with error `e`, then running the whole batch
`pre ++ s :: post` aborts with `e` and the in-memory store is exactly
the result of applying `pre` to the starting state — earlier effects
are retained, later statements are not applied, nothing is rolled
back. -/
theorem C8_no_rollback_on_error (gen : Nat → String) (pre : List Stmt)
    (s : Stmt) (post : List Stmt) (st st' : ExecState) (e : CompErr)
    (h1 : execList gen st pre = .ok st')
    (h2 : execStmt gen st' s = .error e) :
    runStmts gen st (pre ++ s :: post) = (st', some e) := by
  induction pre generalizing st with
  | nil =>
    simp only [execList] at h1
    cases h1
    simp [runStmts, h2]
  | cons p rest ih =>
    simp only [execList] at h1
    cases hp : execStmt gen st p with
    | error e' => rw [hp] at h1; cases h1
    | ok st₀ =>
      rw [hp] at h1
      simpa [runStmts, hp] using ih st₀ h1

/-- Claim C8 witness: a concrete batch where the second statement (a
duplicate strict create) fails; the store keeps the table created by
the first statement and the trailing statement is never applied. -/
theorem C8_no_rollback_on_error_witness :
    runStmts (fun _ => "") (([], 0) : ExecState)
        ([Stmt.createTable "t" [] false] ++
          Stmt.createTable "t" [] false :: [Stmt.printTable "zzz"]) =
      (([("t", ⟨[], []⟩)], 0), some (.tableExists "t")) :=
  C8_no_rollback_on_error (fun _ => "") [Stmt.createTable "t" [] false]
    (Stmt.createTable "t" [] false) [Stmt.printTable "zzz"]
    ([], 0) ([("t", ⟨[], []⟩)], 0) (.tableExists "t") rfl rfl

/-! ## Claim C9 -/

/-- Claim C9: a missing file leaves the store untouched and raises no
error; a file whose first four bytes are not `DTB1` makes decoding
fail with the invalid-format error while the store is untouched — in
particular `Compiler.compile` on a fresh compiler (empty store)
proceeds from the empty store, with the failure available only as the
caught warning value, never propagated. -/
theorem C9_load_failure_policy :
    (∀ store : BStore, load_existing_data none store = (store, none)) ∧
    (∀ (bs : Bytes) (store : BStore), bs.take 4 ≠ magicBytes →
      load_existing_data (some bs) store = (store, some .invalidFormat)) := by
  constructor
  · intro store; rfl
  · intro bs store h
    simp [load_existing_data, loadBytes, readRaw, h]

/-- Claim C9 witness: the missing-file case on a nonempty store, and a
five-byte garbage file decoded into an empty store. -/
theorem C9_load_failure_policy_witness :
    load_existing_data none [([116], (⟨[], []⟩ : BTable))] =
      ([([116], (⟨[], []⟩ : BTable))], none) ∧
    load_existing_data (some [1, 2, 3, 4, 5]) ([] : BStore) =
      ([], some .invalidFormat) :=
  ⟨C9_load_failure_policy.1 [([116], (⟨[], []⟩ : BTable))],
   C9_load_failure_policy.2 [1, 2, 3, 4, 5] [] (by decide)⟩

/-! ## Claim C10 -/

/-- Claim C10: a `Delete` statement with an empty condition mapping
removes every row of an existing table (the empty conjunction holds
for each row) while keeping the table itself, and such a statement is
reachable from source text: `DELETE ITEM { } FROM TABLE t;` parses to
exactly that statement. -/
theorem C10_delete_empty_conditions (store : Store) (tname : String)
    (cols : List Column) (rows : List Row)
    (h : pyGet store tname = some ⟨cols, rows⟩) :
    (delete_data store tname [] = .ok (dictInsert store tname ⟨cols, []⟩) ∧
      pyGet (dictInsert store tname ⟨cols, []⟩) tname = some ⟨cols, []⟩) ∧
    parsePipeline "DELETE ITEM \x7b \x7d FROM TABLE t;" = .ok [.delete "t" []] := by
  refine ⟨⟨?_, pyGet_dictInsert_self store tname ⟨cols, []⟩⟩, rfl⟩
  simp [delete_data, h, rowMatches]

/-- Claim C10 witness: a one-table store with one row; the delete
empties the row list and keeps the table. -/
theorem C10_delete_empty_conditions_witness :
    (delete_data [("t", ⟨[⟨"a", "STR", []⟩], [[("a", "x")]]⟩)] "t" [] =
        .ok (dictInsert ([("t", ⟨[⟨"a", "STR", []⟩], [[("a", "x")]]⟩)] : Store)
              "t" ⟨[⟨"a", "STR", []⟩], []⟩) ∧
      pyGet (dictInsert ([("t", ⟨[⟨"a", "STR", []⟩], [[("a", "x")]]⟩)] : Store)
              "t" ⟨[⟨"a", "STR", []⟩], []⟩) "t" =
        some ⟨[⟨"a", "STR", []⟩], []⟩) ∧
    parsePipeline "DELETE ITEM \x7b \x7d FROM TABLE t;" = .ok [.delete "t" []] :=
  C10_delete_empty_conditions [("t", ⟨[⟨"a", "STR", []⟩], [[("a", "x")]]⟩)] "t"
    [⟨"a", "STR", []⟩] [[("a", "x")]] rfl

/-! ## Claim C5 -/

/-- An alphabetic character is not whitespace. -/
theorem isAlpha_not_pyIsSpace (c : Char) (hc : c.isAlpha = true) :
    pyIsSpace c = false := by
  simp only [pyIsSpace, Bool.or_eq_false_iff, decide_eq_false_iff_not]
  refine ⟨⟨⟨⟨⟨?_, ?_⟩, ?_⟩, ?_⟩, ?_⟩, ?_⟩ <;>
    rintro rfl <;> exact absurd hc (by decide)

/-- The tokenizer on a source consisting of one identifier-shaped
lexeme produces exactly that lexeme as a single token (plus the EOF
sentinel), with the type computed by the keyword classification of
tokenizer.py line 133. -/
theorem tokenize_single_lexeme (c : Char) (cs : List Char)
    (hc : c.isAlpha = true) (hcs : ∀ x ∈ cs, isIdentCont x = true) :
    tokenize (String.mk (c :: cs)) =
      .ok [⟨classifyIdent (String.mk (c :: cs)), String.mk (c :: cs)⟩,
           ⟨some .EOF, ""⟩] := by
  have htake : cs.takeWhile isIdentCont = cs := List.takeWhile_eq_self_iff.mpr hcs
  have hns := isAlpha_not_pyIsSpace c hc
  show tokenizeBody ((c :: cs).length + 1) (c :: cs) [] = _
  simp only [List.length_cons]
  rw [show cs.length + 1 + 1 = (cs.length + 1) + 1 from rfl]
  unfold tokenizeBody
  simp only [hns, Bool.false_eq_true, if_false, hc, if_true, htake,
    List.drop_length, List.nil_append]
  rfl

/-- Claim C5 (counterexample): the all-upper-case lexemes `BOOL` and
`REMOVE` — both listed as keywords by the claim — are tokenized with
token type `None`: neither a keyword token nor an IDENTIFIER token,
because the keyword dict of `Tokenizer.identifier` has only 19 entries
and `keywords.get` returns `None` for upper-case text outside it. -/
theorem C5_upper_nonkeyword_is_none :
    tokenize "BOOL" = .ok [⟨none, "BOOL"⟩, ⟨some .EOF, ""⟩] ∧
    tokenize "REMOVE" = .ok [⟨none, "REMOVE"⟩, ⟨some .EOF, ""⟩] :=
  ⟨rfl, rfl⟩

/-- Claim C5 (amended): for every ASCII lexeme (alphabetic start,
alphanumeric/underscore continuation) the tokenizer emits a single
token carrying the lexeme, whose type is: the keyword token iff the
lexeme is entirely upper-case AND one of the 19 entries of the
tokenizer's keyword dict (NEW, TABLE, IF, EXISTS, IS, FALSE, TRUE,
UNIC, MAIN, UUID, STR, PASSWORD, ADD, ITEM, TO, PRINT, DELETE, FROM,
WHERE); IDENTIFIER iff the lexeme is not entirely upper-case; and
`None` (no token type at all) iff it is entirely upper-case but not in
the dict. -/
theorem C5_keyword_classification (c : Char) (cs : List Char)
    (hc : c.isAlpha = true) (hcs : ∀ x ∈ cs, isIdentCont x = true) :
    tokenize (String.mk (c :: cs)) =
      .ok [⟨classifyIdent (String.mk (c :: cs)), String.mk (c :: cs)⟩,
           ⟨some .EOF, ""⟩] ∧
    (pyIsUpper (String.mk (c :: cs)) = false →
      classifyIdent (String.mk (c :: cs)) = some .IDENTIFIER) ∧
    (pyIsUpper (String.mk (c :: cs)) = true →
      classifyIdent (String.mk (c :: cs)) =
        pyGet keywordTable (String.mk (c :: cs))) ∧
    (pyIsUpper (String.mk (c :: cs)) = true →
      containsKey keywordTable (String.mk (c :: cs)) = false →
      classifyIdent (String.mk (c :: cs)) = none) := by
  refine ⟨tokenize_single_lexeme c cs hc hcs, ?_, ?_, ?_⟩
  · intro h; simp [classifyIdent, h]
  · intro h; simp [classifyIdent, h]
  · intro h h'
    simp only [containsKey] at h'
    cases hx : pyGet keywordTable (String.mk (c :: cs)) with
    | none => simp [classifyIdent, h, hx]
    | some t => rw [hx] at h'; simp at h'

/-- Claim C5 amended-theorem witness: the lexeme `users` (not upper
case) is an IDENTIFIER, instantiating the general classification
theorem. -/
theorem C5_keyword_classification_witness :
    tokenize (String.mk ['u', 's', 'e', 'r', 's']) =
      .ok [⟨classifyIdent (String.mk ['u', 's', 'e', 'r', 's']),
            String.mk ['u', 's', 'e', 'r', 's']⟩, ⟨some .EOF, ""⟩] ∧
    (pyIsUpper (String.mk ['u', 's', 'e', 'r', 's']) = false →
      classifyIdent (String.mk ['u', 's', 'e', 'r', 's']) = some .IDENTIFIER) ∧
    (pyIsUpper (String.mk ['u', 's', 'e', 'r', 's']) = true →
      classifyIdent (String.mk ['u', 's', 'e', 'r', 's']) =
        pyGet keywordTable (String.mk ['u', 's', 'e', 'r', 's'])) ∧
    (pyIsUpper (String.mk ['u', 's', 'e', 'r', 's']) = true →
      containsKey keywordTable (String.mk ['u', 's', 'e', 'r', 's']) = false →
      classifyIdent (String.mk ['u', 's', 'e', 'r', 's']) = none) :=
  C5_keyword_classification 'u' ['s', 'e', 'r', 's'] (by decide) (by decide)

/-! ## Claim C6 -/

/-- The per-column type-validation loop succeeds iff every supplied
value passes its column's check. -/
theorem validateTypes_ok_iff (columns : List Column)
    (values : List (String × String)) :
    validateTypes columns values = .ok () ↔
      ∀ c ∈ columns, ∀ w, pyGet values c.name = some w →
        validateColumn c w = .ok () := by
  induction columns with
  | nil => simp [validateTypes]
  | cons c rest ih =>
    simp only [validateTypes]
    cases hg : pyGet values c.name with
    | none => simp [hg, ih]
    | some v =>
      cases hv : validateColumn c v with
      | ok u => cases u; simp [hv, ih, hg]
      | error e => simp [hv, hg]

/-- Claim C6 (counterexample): the claim says a BOOL column accepts
exactly the strings `"0"` and `"1"`, yet the insert succeeds with the
value `"01"` (Python's `int("01")` is `1`), which is neither. -/
theorem C6_bool_accepts_nonnormal_string :
    insert_data (fun _ => "") [("t", ⟨[⟨"active", "BOOL", []⟩], []⟩)] 0 "t"
        [("active", "01")] =
      .ok ([("t", ⟨[⟨"active", "BOOL", []⟩], [[("active", "01")]]⟩)], 0) ∧
    "01" ≠ "0" ∧ "01" ≠ "1" :=
  ⟨rfl, by decide, by decide⟩

/-- Claim C6 (amended): validation accepts exactly the strings Python's
`int()` parses (optional surrounding whitespace, optional sign, digits
with single embedded underscores) to a value meeting the column type's
condition — for BOOL a value in `{0, 1}`, for INT16/INT32/INT64 a value
in the signed range of that width — and for CHAR exactly the strings of
length one; the loop over the schema raises the first violation and
succeeds iff no supplied value violates its column's check. The
scenario of the spec still holds: `active="2"` is rejected and
`active="1"` accepted. -/
theorem C6_type_validation_characterization (name ty v : String)
    (cs : List String) (columns : List Column)
    (values : List (String × String)) :
    (validateColumn ⟨name, "BOOL", cs⟩ v = .ok () ↔
      pyInt v = some 0 ∨ pyInt v = some 1) ∧
    (validateColumn ⟨name, "CHAR", cs⟩ v = .ok () ↔ v.length = 1) ∧
    (validateColumn ⟨name, "INT16", cs⟩ v = .ok () ↔
      ∃ n : Int, pyInt v = some n ∧ -32768 ≤ n ∧ n ≤ 32767) ∧
    (validateColumn ⟨name, "INT32", cs⟩ v = .ok () ↔
      ∃ n : Int, pyInt v = some n ∧ -2147483648 ≤ n ∧ n ≤ 2147483647) ∧
    (validateColumn ⟨name, "INT64", cs⟩ v = .ok () ↔
      ∃ n : Int, pyInt v = some n ∧ -9223372036854775808 ≤ n ∧
        n ≤ 9223372036854775807) ∧
    (ty ≠ "BOOL" → ty ≠ "CHAR" → ty ≠ "INT16" → ty ≠ "INT32" →
      ty ≠ "INT64" → validateColumn ⟨name, ty, cs⟩ v = .ok ()) ∧
    (validateTypes columns values = .ok () ↔
      ∀ c ∈ columns, ∀ w, pyGet values c.name = some w →
        validateColumn c w = .ok ()) ∧
    validateColumn ⟨"active", "BOOL", []⟩ "2" = .error (.boolInvalid "2") ∧
    validateColumn ⟨"active", "BOOL", []⟩ "1" = .ok () := by
  refine ⟨?_, ?_, ?_, ?_, ?_, ?_, validateTypes_ok_iff columns values, rfl, rfl⟩
  · cases hp : pyInt v with
    | none => simp [validateColumn, hp]
    | some n =>
      by_cases h : n = 0 ∨ n = 1 <;> simp [validateColumn, hp, h]
  · simp [validateColumn]
  · cases hp : pyInt v with
    | none => simp [validateColumn, hp]
    | some n =>
      by_cases h : n < -32768 ∨ n > 32767 <;>
        simp [validateColumn, hp, h] <;> omega
  · cases hp : pyInt v with
    | none => simp [validateColumn, hp]
    | some n =>
      by_cases h : n < -2147483648 ∨ n > 2147483647 <;>
        simp [validateColumn, hp, h] <;> omega
  · cases hp : pyInt v with
    | none => simp [validateColumn, hp]
    | some n =>
      by_cases h : n < -9223372036854775808 ∨ n > 9223372036854775807 <;>
        simp [validateColumn, hp, h] <;> omega
  · intro h1 h2 h3 h4 h5
    simp [validateColumn, h1, h2, h3, h4, h5]

/-- Claim C6 amended-theorem witness: a `STR` column accepts anything
(discharging the five type-inequality hypotheses concretely), and the
BOOL characterization instantiated at the value `"01"`. -/
theorem C6_type_validation_characterization_witness :
    validateColumn ⟨"name", "STR", []⟩ "Ann" = .ok () ∧
    (validateColumn ⟨"active", "BOOL", []⟩ "01" = .ok () ↔
      pyInt "01" = some 0 ∨ pyInt "01" = some 1) :=
  ⟨(C6_type_validation_characterization "name" "STR" "Ann" [] [] []).2.2.2.2.2.1
      (by decide) (by decide) (by decide) (by decide) (by decide),
   (C6_type_validation_characterization "active" "BOOL" "01" [] [] []).1⟩

/-! ## Claim C2 -/

/-- The constraint loop succeeds iff every supplied value passes its
column's counting check. -/
theorem checkConstraints_ok_iff (columns : List Column) (rows : List Row)
    (values : List (String × String)) :
    checkConstraints columns rows values = .ok () ↔
      ∀ c ∈ columns, ∀ v, pyGet values c.name = some v →
        checkColConstraint c v rows = .ok () := by
  induction columns with
  | nil => simp [checkConstraints]
  | cons c rest ih =>
    simp only [checkConstraints]
    cases hg : pyGet values c.name with
    | none => simp [hg, ih]
    | some v =>
      cases hv : checkColConstraint c v rows with
      | ok u => cases u; simp [hv, ih, hg]
      | error e => simp [hv, hg]

/-- Claim C2: the counting semantics of the constraint check. The
single-column check rejects iff UNIQUE∧PRIMARY with count ≥ 1, UNIQUE
alone with count ≥ 2, or PRIMARY alone with count ≥ 10 (first
conjunct); the loop rejects iff some supplied column's check rejects
(second conjunct); on a UNIQUE-only column two inserts of the same
value succeed and the third fails; on a PRIMARY-only column the 10th
insert of a value succeeds and the 11th fails; and on a
constraint-free column no count-based rejection occurs whatever rows
exist. -/
theorem C2_constraint_counting :
    (∀ (c : Column) (v : String) (rows : List Row),
      (∃ e, checkColConstraint c v rows = .error e) ↔
        (("UNIQUE" ∈ c.constraints ∧ "PRIMARY" ∈ c.constraints ∧
            1 ≤ rowCount rows c.name v) ∨
         ("UNIQUE" ∈ c.constraints ∧ "PRIMARY" ∉ c.constraints ∧
            2 ≤ rowCount rows c.name v) ∨
         ("PRIMARY" ∈ c.constraints ∧ "UNIQUE" ∉ c.constraints ∧
            10 ≤ rowCount rows c.name v))) ∧
    (∀ columns rows values, checkConstraints columns rows values = .ok () ↔
      ∀ c ∈ columns, ∀ v, pyGet values c.name = some v →
        checkColConstraint c v rows = .ok ()) ∧
    (∀ (gen : Nat → String) (k : Nat) (v : String),
      insert_data gen [("t", ⟨[⟨"c", "STR", ["UNIQUE"]⟩], []⟩)] k "t"
          [("c", v)] =
        .ok ([("t", ⟨[⟨"c", "STR", ["UNIQUE"]⟩], [[("c", v)]]⟩)], k) ∧
      insert_data gen [("t", ⟨[⟨"c", "STR", ["UNIQUE"]⟩], [[("c", v)]]⟩)] k
          "t" [("c", v)] =
        .ok ([("t", ⟨[⟨"c", "STR", ["UNIQUE"]⟩],
              [[("c", v)], [("c", v)]]⟩)], k) ∧
      insert_data gen
          [("t", ⟨[⟨"c", "STR", ["UNIQUE"]⟩], [[("c", v)], [("c", v)]]⟩)] k
          "t" [("c", v)] =
        .error (.unicViolation "c" v)) ∧
    (∀ (gen : Nat → String) (k : Nat) (v : String),
      insert_data gen
          [("t", ⟨[⟨"c", "STR", ["PRIMARY"]⟩],
            List.replicate 9 [("c", v)]⟩)] k "t" [("c", v)] =
        .ok ([("t", ⟨[⟨"c", "STR", ["PRIMARY"]⟩],
              List.replicate 10 [("c", v)]⟩)], k) ∧
      insert_data gen
          [("t", ⟨[⟨"c", "STR", ["PRIMARY"]⟩],
            List.replicate 10 [("c", v)]⟩)] k "t" [("c", v)] =
        .error (.mainViolation "c" v)) ∧
    (∀ (gen : Nat → String) (k : Nat) (v : String) (rows : List Row),
      insert_data gen [("t", ⟨[⟨"c", "STR", []⟩], rows⟩)] k "t" [("c", v)] =
        .ok ([("t", ⟨[⟨"c", "STR", []⟩], rows ++ [[("c", v)]]⟩)], k)) := by
  refine ⟨?_, checkConstraints_ok_iff, ?_, ?_, ?_⟩
  · intro c v rows
    simp only [checkColConstraint]
    by_cases hu : "UNIQUE" ∈ c.constraints <;>
      by_cases hm : "PRIMARY" ∈ c.constraints <;>
        simp [hu, hm] <;> split_ifs <;> simp_all
  · intro gen k v
    refine ⟨?_, ?_, ?_⟩ <;>
      simp [insert_data, pyGet, validateTypes, validateColumn,
        checkConstraints, checkColConstraint, rowCount, buildRow,
        uuidPrimary, strContainsSub, listContainsSub, dictInsert]
  · intro gen k v
    constructor <;>
      simp [insert_data, pyGet, validateTypes, validateColumn,
        checkConstraints, checkColConstraint, rowCount, countP_replicate,
        buildRow, uuidPrimary, strContainsSub, listContainsSub, dictInsert,
        List.replicate_succ]
  · intro gen k v rows
    simp [insert_data, pyGet, validateTypes, validateColumn,
      checkConstraints, checkColConstraint, buildRow, uuidPrimary,
      strContainsSub, listContainsSub, dictInsert]

/-! ## Claim C7 -/

/-- When every non-generated column has a supplied value, the
row-building loop succeeds. -/
theorem buildRow_ok_exists (gen : Nat → String) (cols : List Column)
    (values : List (String × String)) :
    ∀ (acc : Row) (k : Nat),
      (∀ c' ∈ cols, uuidPrimary c' = false →
        (pyGet values c'.name).isSome = true) →
      ∃ row k', buildRow gen cols values acc k = .ok (row, k') := by
  induction cols with
  | nil => exact fun acc k _ => ⟨acc, k, rfl⟩
  | cons h t ih =>
    intro acc k hsup
    have hsup' := fun c' hc' => hsup c' (List.mem_cons_of_mem h hc')
    cases hup : uuidPrimary h with
    | true =>
      simpa [buildRow, hup] using
        ih (dictInsert acc h.name (gen k)) (k + 1) hsup'
    | false =>
      have hs := hsup h (List.mem_cons_self h t) hup
      rw [Option.isSome_iff_exists] at hs
      obtain ⟨v, hv⟩ := hs
      simpa [buildRow, hup, hv] using ih (dictInsert acc h.name v) k hsup'

/-- Columns whose name differs from `nm` never touch the `nm` entry of
the row being built. -/
theorem buildRow_get_frozen (gen : Nat → String) (cols : List Column)
    (values : List (String × String)) (row : Row) (k' : Nat) (nm : String) :
    ∀ (acc : Row) (k : Nat), (∀ c' ∈ cols, c'.name ≠ nm) →
      buildRow gen cols values acc k = .ok (row, k') →
      pyGet row nm = pyGet acc nm := by
  induction cols with
  | nil =>
    intro acc k _ hb
    simp only [buildRow, Except.ok.injEq, Prod.mk.injEq] at hb
    rw [hb.1]
  | cons h t ih =>
    intro acc k hn hb
    have hn' := fun c' hc' => hn c' (List.mem_cons_of_mem h hc')
    have hne : h.name ≠ nm := hn h (List.mem_cons_self h t)
    cases hup : uuidPrimary h with
    | true =>
      simp only [buildRow, hup, if_true] at hb
      rw [ih _ _ hn' hb, pyGet_dictInsert_ne _ _ _ _ hne]
    | false =>
      cases hv : pyGet values h.name with
      | none => simp [buildRow, hup, hv] at hb
      | some v =>
        simp only [buildRow, hup, Bool.false_eq_true, if_false, hv] at hb
        rw [ih _ _ hn' hb, pyGet_dictInsert_ne _ _ _ _ hne]

/-- The built row's entry for a UUID+PRIMARY column is an output of the
uuid oracle. -/
theorem buildRow_get_uuid (gen : Nat → String) (cols : List Column)
    (values : List (String × String)) (row : Row) (k' : Nat) (c : Column)
    (hup : uuidPrimary c = true) :
    ∀ (acc : Row) (k : Nat), c ∈ cols →
      (cols.map Column.name).Nodup →
      buildRow gen cols values acc k = .ok (row, k') →
      ∃ i, pyGet row c.name = some (gen i) := by
  induction cols with
  | nil => intro acc k hc _ _; cases hc
  | cons h t ih =>
    intro acc k hc hnodup hb
    have hnodup' := (List.nodup_cons.mp hnodup).2
    rcases List.mem_cons.mp hc with rfl | hct
    · simp only [buildRow, hup, if_true] at hb
      have hne : ∀ c' ∈ t, c'.name ≠ c.name := by
        intro c' hc' he
        exact (List.nodup_cons.mp hnodup).1
          (he ▸ List.mem_map_of_mem Column.name hc')
      rw [buildRow_get_frozen gen t values row k' c.name _ _ hne hb,
        pyGet_dictInsert_self]
      exact ⟨k, rfl⟩
    · cases hup2 : uuidPrimary h with
      | true =>
        simp only [buildRow, hup2, if_true] at hb
        exact ih _ _ hct hnodup' hb
      | false =>
        cases hv : pyGet values h.name with
        | none => simp [buildRow, hup2, hv] at hb
        | some v =>
          simp only [buildRow, hup2, Bool.false_eq_true, if_false, hv] at hb
          exact ih _ _ hct hnodup' hb

/-- If some non-generated column has no supplied value, the
row-building loop fails with a missing-value error. -/
theorem buildRow_error_missing (gen : Nat → String) (cols : List Column)
    (values : List (String × String)) :
    ∀ (acc : Row) (k : Nat),
      (∃ c' ∈ cols, uuidPrimary c' = false ∧ pyGet values c'.name = none) →
      ∃ cn, buildRow gen cols values acc k = .error (.missingValue cn) := by
  induction cols with
  | nil => intro acc k h; simp at h
  | cons hd t ih =>
    intro acc k h
    cases hup : uuidPrimary hd with
    | true =>
      rw [buildRow, if_pos hup]
      apply ih
      rcases h with ⟨c', hc', hfc', hnc'⟩
      rcases List.mem_cons.mp hc' with rfl | hct
      · rw [hup] at hfc'; cases hfc'
      · exact ⟨c', hct, hfc', hnc'⟩
    | false =>
      cases hv : pyGet values hd.name with
      | none =>
        refine ⟨hd.name, ?_⟩
        simp [buildRow, hup, hv]
      | some v =>
        have hstep : buildRow gen (hd :: t) values acc k =
            buildRow gen t values (dictInsert acc hd.name v) k := by
          simp [buildRow, hup, hv]
        rw [hstep]
        apply ih
        rcases h with ⟨c', hc', hfc', hnc'⟩
        rcases List.mem_cons.mp hc' with rfl | hct
        · rw [hv] at hnc'; cases hnc'
        · exact ⟨c', hct, hfc', hnc'⟩

/-- Claim C7: inserting into a table whose schema has a UUID+PRIMARY
column (and, for the dict model, pairwise-distinct column names): when
every other column has a supplied value and the validation and
constraint phases pass, the insert appends exactly one row whose value
at that column is an output of the uuid oracle — so, whenever the
oracle's outputs differ from every supplied value (the uuid4 freshness
assumption), the stored value differs from any caller-supplied value
for that column; and when some non-generated column has no supplied
value the insert fails with a missing-value error and the store is
left unchanged by the batch runner (no row is appended). -/
theorem C7_uuid_primary_generation (gen : Nat → String) (k : Nat)
    (store : Store) (tname : String) (values : List (String × String))
    (cols : List Column) (rows : List Row) (c : Column)
    (h1 : pyGet store tname = some ⟨cols, rows⟩)
    (h2 : c ∈ cols)
    (h3 : uuidPrimary c = true)
    (h7 : (cols.map Column.name).Nodup) :
    ((∀ c' ∈ cols, uuidPrimary c' = false →
        (pyGet values c'.name).isSome = true) →
      validateTypes cols values = .ok () →
      checkConstraints cols rows values = .ok () →
      ∃ (row : Row) (k' : Nat), insert_data gen store k tname values =
          .ok (dictInsert store tname ⟨cols, rows ++ [row]⟩, k') ∧
        (∃ i : Nat, pyGet row c.name = some (gen i)) ∧
        (∀ v, pyGet values c.name = some v → (∀ j : Nat, gen j ≠ v) →
          pyGet row c.name ≠ some v)) ∧
    ((∃ c' ∈ cols, uuidPrimary c' = false ∧ pyGet values c'.name = none) →
      validateTypes cols values = .ok () →
      checkConstraints cols rows values = .ok () →
      ∃ cn, insert_data gen store k tname values =
          .error (.missingValue cn) ∧
        runStmts gen (store, k) [.insert tname values] =
          ((store, k), some (.missingValue cn))) := by
  constructor
  · intro hsup hval hcon
    obtain ⟨row, k', hb⟩ := buildRow_ok_exists gen cols values [] k hsup
    obtain ⟨i, hi⟩ := buildRow_get_uuid gen cols values row k' c h3 [] k h2 h7 hb
    refine ⟨row, k', ?_, ⟨i, hi⟩, ?_⟩
    · simp [insert_data, h1, hval, hcon, hb]
    · intro v _ hfresh heq
      rw [hi] at heq
      exact hfresh i (Option.some.inj heq)
  · intro hmiss hval hcon
    obtain ⟨cn, hb⟩ := buildRow_error_missing gen cols values [] k hmiss
    refine ⟨cn, ?_, ?_⟩
    · simp [insert_data, h1, hval, hcon, hb]
    · simp [runStmts, execStmt, insert_data, h1, hval, hcon, hb]

/-- Claim C7 witness: a `users` table with a UUID+PRIMARY `id` column
and a plain `name` column; inserting only a `name` value succeeds and
stores an oracle output in `id`, never a caller-supplied value. -/
theorem C7_uuid_primary_generation_witness :
    ∃ (row : Row) (k' : Nat), insert_data (fun _ => "G")
        [("users", ⟨[⟨"id", "UUID", ["UNIQUE", "PRIMARY"]⟩,
          ⟨"name", "STR", []⟩], []⟩)] 0 "users" [("name", "Ann")] =
        .ok (dictInsert
          ([("users", ⟨[⟨"id", "UUID", ["UNIQUE", "PRIMARY"]⟩,
            ⟨"name", "STR", []⟩], []⟩)] : Store) "users"
          ⟨[⟨"id", "UUID", ["UNIQUE", "PRIMARY"]⟩, ⟨"name", "STR", []⟩],
            [] ++ [row]⟩, k') ∧
      (∃ i : Nat, pyGet row "id" = some ((fun _ => "G") i)) ∧
      (∀ v, pyGet [("name", "Ann")] "id" = some v →
        (∀ j : Nat, (fun _ => "G") j ≠ v) → pyGet row "id" ≠ some v) :=
  (C7_uuid_primary_generation (fun _ => "G") 0
    [("users", ⟨[⟨"id", "UUID", ["UNIQUE", "PRIMARY"]⟩,
      ⟨"name", "STR", []⟩], []⟩)] "users" [("name", "Ann")]
    [⟨"id", "UUID", ["UNIQUE", "PRIMARY"]⟩, ⟨"name", "STR", []⟩] []
    ⟨"id", "UUID", ["UNIQUE", "PRIMARY"]⟩ rfl (by simp) (by decide)
    (by decide)).1 (by decide) rfl rfl

/-! ## Claim C1 -/

/-- Reduction of an `Except` bind on a success value. -/
theorem exceptBind_ok {ε α β : Type} (x : α) (f : α → Except ε β) :
    (Bind.bind (Except.ok x) f : Except ε β) = f x := rfl

/-- Reduction of an `Option` bind on a present value. -/
theorem optionBind_some {α β : Type} (x : α) (f : α → Option β) :
    (Bind.bind (some x) f : Option β) = f x := rfl

/-- Reduction of an `Option` bind on an absent value. -/
theorem optionBind_none {α β : Type} (f : α → Option β) :
    (Bind.bind none f : Option β) = none := rfl

/-- `f.read` of the first `l.length` bytes of `l ++ r` splits exactly. -/
theorem readRaw_append (l r : Bytes) : readRaw l.length (l ++ r) = (l, r) := by
  simp [readRaw, List.take_left l r, List.drop_left l r]

/-- Reading back a 16-bit length written by `pack16`. -/
theorem read16_pack16 (n : Nat) (l r : Bytes) (h : pack16 n = some l) :
    read16 (l ++ r) = .ok (n, r) := by
  by_cases hn : n < 65536
  · simp only [pack16, if_pos hn, Option.some.injEq] at h
    subst h
    simp only [List.cons_append, List.nil_append, read16, Except.ok.injEq,
      Prod.mk.injEq, and_true]
    omega
  · simp [pack16, hn] at h

/-- Reading back a 32-bit length written by `pack32`. -/
theorem read32_pack32 (n : Nat) (l r : Bytes) (h : pack32 n = some l) :
    read32 (l ++ r) = .ok (n, r) := by
  by_cases hn : n < 4294967296
  · simp only [pack32, if_pos hn, Option.some.injEq] at h
    subst h
    simp only [List.cons_append, List.nil_append, read32, Except.ok.injEq,
      Prod.mk.injEq, and_true]
    omega
  · simp [pack32, hn] at h

/-- Decoding the constraints written by `encConstraints`. -/
theorem decConstraints_enc (cs : List Bytes) :
    ∀ (b r : Bytes), encConstraints cs = some b →
      decConstraints cs.length (b ++ r) = .ok (cs, r) := by
  induction cs with
  | nil =>
    intro b r h
    simp only [encConstraints, Option.some.injEq] at h
    subst h
    rfl
  | cons c t ih =>
    intro b r h
    simp only [encConstraints] at h
    cases hl : pack16 c.length with
    | none => rw [hl, optionBind_none] at h; cases h
    | some l =>
      rw [hl, optionBind_some] at h
      cases ht : encConstraints t with
      | none => rw [ht, optionBind_none] at h; cases h
      | some rest =>
        rw [ht, optionBind_some] at h
        simp only [Option.pure_def, Option.some.injEq] at h
        subst h
        simp only [List.length_cons, List.append_assoc]
        simp only [decConstraints]
        rw [read16_pack16 c.length l _ hl, exceptBind_ok]
        rw [readRaw_append c (rest ++ r)]
        rw [ih _ _ ht, exceptBind_ok]
        rfl

/-- Decoding a column record written by `encColumn`. -/
theorem decColumn_enc (c : BColumn) (b r : Bytes) (h : encColumn c = some b) :
    decColumn (b ++ r) = .ok (c, r) := by
  simp only [encColumn] at h
  cases hn : pack16 c.name.length with
  | none => rw [hn, optionBind_none] at h; cases h
  | some ln =>
    rw [hn, optionBind_some] at h
    cases htl : pack16 c.type.length with
    | none => rw [htl, optionBind_none] at h; cases h
    | some lt =>
      rw [htl, optionBind_some] at h
      cases hk : pack16 c.constraints.length with
      | none => rw [hk, optionBind_none] at h; cases h
      | some lk =>
        rw [hk, optionBind_some] at h
        cases hcs : encConstraints c.constraints with
        | none => rw [hcs, optionBind_none] at h; cases h
        | some cs =>
          rw [hcs, optionBind_some] at h
          simp only [Option.pure_def, Option.some.injEq] at h
          subst h
          simp only [List.append_assoc]
          simp only [decColumn]
          rw [read16_pack16 c.name.length ln _ hn, exceptBind_ok,
            readRaw_append c.name, read16_pack16 c.type.length lt _ htl,
            exceptBind_ok, readRaw_append c.type,
            read16_pack16 c.constraints.length lk _ hk, exceptBind_ok,
            decConstraints_enc c.constraints cs r hcs, exceptBind_ok]
          rfl

/-- Decoding the column list written by `encColumns`. -/
theorem decColumns_enc (cols : List BColumn) :
    ∀ (b r : Bytes), encColumns cols = some b →
      decColumns cols.length (b ++ r) = .ok (cols, r) := by
  induction cols with
  | nil =>
    intro b r h
    simp only [encColumns, Option.some.injEq] at h
    subst h
    rfl
  | cons c t ih =>
    intro b r h
    simp only [encColumns] at h
    cases hc : encColumn c with
    | none => rw [hc, optionBind_none] at h; cases h
    | some bc =>
      rw [hc, optionBind_some] at h
      cases ht : encColumns t with
      | none => rw [ht, optionBind_none] at h; cases h
      | some bt =>
        rw [ht, optionBind_some] at h
        simp only [Option.pure_def, Option.some.injEq] at h
        subst h
        simp only [List.length_cons, List.append_assoc]
        simp only [decColumns]
        rw [decColumn_enc c bc _ hc, exceptBind_ok, ih _ _ ht, exceptBind_ok]
        rfl

/-- A row entry whose key is no remaining column's name does not affect
the encoding of the remaining columns. -/
theorem encRow_cons_ne (t : List BColumn) (key v : Bytes) (row' : BRow)
    (h : ∀ c' ∈ t, c'.name ≠ key) :
    encRow t ((key, v) :: row') = encRow t row' := by
  induction t with
  | nil => rfl
  | cons c rest ih =>
    have hne : c.name ≠ key := h c (List.mem_cons_self c rest)
    have hget : pyGet ((key, v) :: row') c.name = pyGet row' c.name := by
      simp [pyGet, Ne.symm hne]
    simp only [encRow, hget,
      ih (fun c' hc' => h c' (List.mem_cons_of_mem c hc'))]

/-- Decoding a row written by `encRow`, accumulating into a dict whose
keys are disjoint from the column names. -/
theorem decRowAux_enc (cols : List BColumn) :
    ∀ (row acc : BRow) (b r : Bytes),
      encRow cols row = some b →
      row.map Prod.fst = cols.map BColumn.name →
      (cols.map BColumn.name).Nodup →
      (∀ k ∈ cols.map BColumn.name, k ∉ acc.map Prod.fst) →
      decRowAux cols acc (b ++ r) = .ok (acc ++ row, r) := by
  induction cols with
  | nil =>
    intro row acc b r h hkeys _ _
    simp only [encRow, Option.some.injEq] at h
    subst h
    have hrow : row = [] := by
      cases row with
      | nil => rfl
      | cons p t => simp at hkeys
    subst hrow
    simp [decRowAux]
  | cons c t ih =>
    intro row acc b r h hkeys hnodup hdisj
    cases row with
    | nil => simp at hkeys
    | cons p row' =>
      obtain ⟨key, v₀⟩ := p
      simp only [List.map_cons, List.cons.injEq] at hkeys
      obtain ⟨hkey, hkeys'⟩ := hkeys
      subst hkey
      have hne : ∀ c' ∈ t, c'.name ≠ c.name := by
        intro c' hc' he
        exact (List.nodup_cons.mp hnodup).1
          (he ▸ List.mem_map_of_mem BColumn.name hc')
      simp only [encRow, pyGet, eq_self_iff_true, if_true, optionBind_some] at h
      rw [encRow_cons_ne t c.name v₀ row' hne] at h
      cases hl : pack32 v₀.length with
      | none => rw [hl, optionBind_none] at h; cases h
      | some l =>
        rw [hl, optionBind_some] at h
        cases ht : encRow t row' with
        | none => rw [ht, optionBind_none] at h; cases h
        | some rest =>
          rw [ht, optionBind_some] at h
          simp only [Option.pure_def, Option.some.injEq] at h
          subst h
          simp only [List.append_assoc]
          simp only [decRowAux]
          rw [read32_pack32 v₀.length l _ hl, exceptBind_ok,
            readRaw_append v₀ (rest ++ r)]
          have hnotin : c.name ∉ acc.map Prod.fst :=
            hdisj c.name (by simp)
          rw [dictInsert_eq_append acc c.name v₀ hnotin]
          have hdisj' : ∀ k ∈ t.map BColumn.name,
              k ∉ (acc ++ [(c.name, v₀)]).map Prod.fst := by
            intro k hk
            simp only [List.map_append, List.mem_append, List.map_cons,
              List.map_nil, List.mem_singleton]
            push_neg
            refine ⟨hdisj k (by simp [hk]), ?_⟩
            intro he
            rcases List.mem_map.mp hk with ⟨c', hc', hcn⟩
            exact hne c' hc' (hcn.trans he)
          rw [ih row' (acc ++ [(c.name, v₀)]) rest r ht hkeys'
            (List.nodup_cons.mp hnodup).2 hdisj']
          simp

/-- Decoding the row block written by `encRows`. -/
theorem decRows_enc (cols : List BColumn) (rows : List BRow) :
    ∀ (b r : Bytes), encRows cols rows = some b →
      (∀ row ∈ rows, row.map Prod.fst = cols.map BColumn.name) →
      (cols.map BColumn.name).Nodup →
      decRows cols rows.length (b ++ r) = .ok (rows, r) := by
  induction rows with
  | nil =>
    intro b r h _ _
    simp only [encRows, Option.some.injEq] at h
    subst h
    rfl
  | cons row rest ih =>
    intro b r h hkeys hnodup
    simp only [encRows] at h
    cases hrow : encRow cols row with
    | none => rw [hrow, optionBind_none] at h; cases h
    | some brow =>
      rw [hrow, optionBind_some] at h
      cases hrest : encRows cols rest with
      | none => rw [hrest, optionBind_none] at h; cases h
      | some brest =>
        rw [hrest, optionBind_some] at h
        simp only [Option.pure_def, Option.some.injEq] at h
        subst h
        simp only [List.length_cons, List.append_assoc]
        simp only [decRows]
        rw [decRowAux_enc cols row [] brow (brest ++ r) hrow
          (hkeys row (List.mem_cons_self row rest)) hnodup (by simp),
          exceptBind_ok, List.nil_append,
          ih brest r hrest
            (fun row' hr => hkeys row' (List.mem_cons_of_mem row hr)) hnodup,
          exceptBind_ok]
        rfl

/-- Decoding a table record written by `encTable`. -/
theorem decTable_enc (name : Bytes) (t : BTable) (b r : Bytes)
    (h : encTable name t = some b)
    (hkeys : ∀ row ∈ t.data, row.map Prod.fst = t.columns.map BColumn.name)
    (hnodup : (t.columns.map BColumn.name).Nodup) :
    decTable (b ++ r) = .ok ((name, t), r) := by
  simp only [encTable] at h
  cases hn : pack16 name.length with
  | none => rw [hn, optionBind_none] at h; cases h
  | some ln =>
    rw [hn, optionBind_some] at h
    cases hcn : pack16 t.columns.length with
    | none => rw [hcn, optionBind_none] at h; cases h
    | some lcn =>
      rw [hcn, optionBind_some] at h
      cases hcols : encColumns t.columns with
      | none => rw [hcols, optionBind_none] at h; cases h
      | some bcols =>
        rw [hcols, optionBind_some] at h
        cases hrn : pack32 t.data.length with
        | none => rw [hrn, optionBind_none] at h; cases h
        | some lrn =>
          rw [hrn, optionBind_some] at h
          cases hrows : encRows t.columns t.data with
          | none => rw [hrows, optionBind_none] at h; cases h
          | some brows =>
            rw [hrows, optionBind_some] at h
            simp only [Option.pure_def, Option.some.injEq] at h
            subst h
            simp only [List.append_assoc]
            simp only [decTable]
            rw [read16_pack16 name.length ln _ hn, exceptBind_ok,
              readRaw_append name,
              read16_pack16 t.columns.length lcn _ hcn, exceptBind_ok,
              decColumns_enc t.columns bcols _ hcols, exceptBind_ok,
              read32_pack32 t.data.length lrn _ hrn, exceptBind_ok,
              decRows_enc t.columns t.data brows r hrows hkeys hnodup,
              exceptBind_ok]
            rfl

/-- Decoding the table sequence written by `encTables`, threading the
store dict: with pairwise-distinct fresh table names each read table
appends. -/
theorem decTables_enc (S : BStore) :
    ∀ (acc : BStore) (b r : Bytes),
      encTables S = some b →
      (∀ p ∈ S, ∀ row ∈ p.2.data,
        row.map Prod.fst = p.2.columns.map BColumn.name) →
      (∀ p ∈ S, (p.2.columns.map BColumn.name).Nodup) →
      (S.map Prod.fst).Nodup →
      (∀ k ∈ S.map Prod.fst, k ∉ acc.map Prod.fst) →
      decTables S.length (b ++ r) acc = (acc ++ S, none) := by
  induction S with
  | nil =>
    intro acc b r h _ _ _ _
    simp only [encTables, Option.some.injEq] at h
    subst h
    simp [decTables]
  | cons p rest ih =>
    intro acc b r h hkeys hcolnd hnames hdisj
    obtain ⟨name, t⟩ := p
    simp only [encTables] at h
    cases ht : encTable name t with
    | none => rw [ht, optionBind_none] at h; cases h
    | some bt =>
      rw [ht, optionBind_some] at h
      cases hrest : encTables rest with
      | none => rw [hrest, optionBind_none] at h; cases h
      | some brest =>
        rw [hrest, optionBind_some] at h
        simp only [Option.pure_def, Option.some.injEq] at h
        subst h
        simp only [List.length_cons, List.append_assoc]
        simp only [decTables]
        rw [decTable_enc name t bt (brest ++ r) ht
          (hkeys (name, t) (List.mem_cons_self _ _))
          (hcolnd (name, t) (List.mem_cons_self _ _))]
        show decTables rest.length (brest ++ r) (dictInsert acc name t) =
          (acc ++ (name, t) :: rest, none)
        have hnotin : name ∉ acc.map Prod.fst := hdisj name (by simp)
        rw [dictInsert_eq_append acc name t hnotin]
        have hne : ∀ p' ∈ rest, p'.1 ≠ name := by
          intro p' hp' he
          have hm : p'.1 ∈ rest.map Prod.fst :=
            List.mem_map_of_mem Prod.fst hp'
          rw [he] at hm
          exact (List.nodup_cons.mp hnames).1 hm
        have hdisj' : ∀ k ∈ rest.map Prod.fst,
            k ∉ (acc ++ [(name, t)]).map Prod.fst := by
          intro k hk
          simp only [List.map_append, List.mem_append, List.map_cons,
            List.map_nil, List.mem_singleton]
          push_neg
          refine ⟨hdisj k (by simp [hk]), ?_⟩
          intro he
          rcases List.mem_map.mp hk with ⟨p', hp', hpn⟩
          exact hne p' hp' (hpn.trans he)
        rw [ih (acc ++ [(name, t)]) brest r hrest
          (fun p' hp' => hkeys p' (List.mem_cons_of_mem _ hp'))
          (fun p' hp' => hcolnd p' (List.mem_cons_of_mem _ hp'))
          (List.nodup_cons.mp hnames).2 hdisj']
        simp

/-- Claim C1 (counterexample): a store whose single row carries a value
for the schema column `[97]` but also an extra key `[98]` outside the
schema encodes successfully, yet decoding drops the extra entry, so
`decode (encode S)` is not structurally equal to S even though every
schema column is supplied in every row. -/
theorem C1_extra_row_key_lost :
    encodeStore
        [([116], ⟨[⟨[97], [83, 84, 82], []⟩],
          [[([97], [120]), ([98], [121])]]⟩)] =
      some [68, 84, 66, 49, 0, 0, 0, 1, 0, 1, 116, 0, 1, 0, 1, 97, 0, 3,
        83, 84, 82, 0, 0, 0, 0, 0, 1, 0, 0, 0, 1, 120] ∧
    decodeStore [68, 84, 66, 49, 0, 0, 0, 1, 0, 1, 116, 0, 1, 0, 1, 97, 0,
        3, 83, 84, 82, 0, 0, 0, 0, 0, 1, 0, 0, 0, 1, 120] =
      .ok [([116], ⟨[⟨[97], [83, 84, 82], []⟩], [[([97], [120])]]⟩)] ∧
    ([([116], (⟨[⟨[97], [83, 84, 82], []⟩],
        [[([97], [120])]]⟩ : BTable))] : BStore) ≠
      [([116], ⟨[⟨[97], [83, 84, 82], []⟩],
        [[([97], [120]), ([98], [121])]]⟩)] ∧
    pyGet [([97], ([120] : Bytes)), ([98], [121])] [97] = some [120] :=
  ⟨rfl, rfl, by decide, rfl⟩

/-- Claim C1 (amended): for every store with pairwise-distinct table
names, per-table pairwise-distinct column names, and rows whose keys
are exactly the schema's column names in schema order, decoding the
bytes produced by a successful encode returns exactly the original
store: same tables in order, same column lists, same rows with the
same values. -/
theorem C1_encode_decode_roundtrip (S : BStore) (bs : Bytes)
    (henc : encodeStore S = some bs)
    (hnames : (S.map Prod.fst).Nodup)
    (hcolnd : ∀ p ∈ S, (p.2.columns.map BColumn.name).Nodup)
    (hrows : ∀ p ∈ S, ∀ row ∈ p.2.data,
      row.map Prod.fst = p.2.columns.map BColumn.name) :
    decodeStore bs = .ok S := by
  simp only [encodeStore] at henc
  cases hn : pack32 S.length with
  | none => rw [hn, optionBind_none] at henc; cases henc
  | some n =>
    rw [hn, optionBind_some] at henc
    cases hts : encTables S with
    | none => rw [hts, optionBind_none] at henc; cases henc
    | some ts =>
      rw [hts, optionBind_some] at henc
      simp only [Option.pure_def, Option.some.injEq] at henc
      subst henc
      have hts' : ts ++ ([] : Bytes) = ts := List.append_nil ts
      simp only [decodeStore, loadBytes, magicBytes, List.cons_append,
        List.nil_append, readRaw, List.take, List.drop, if_pos,
        List.append_eq]
      rw [read32_pack32 S.length n ts hn, ← hts']
      show (match decTables S.length (ts ++ []) ([] : BStore) with
            | (st, none) => Except.ok st
            | (_, some e) => Except.error e) = Except.ok S
      rw [decTables_enc S [] ts [] hts hrows hcolnd hnames (by simp)]
      simp

/-- Claim C1 amended-theorem witness: a concrete one-table store whose
row has exactly the schema key, round-tripped. -/
theorem C1_encode_decode_roundtrip_witness :
    decodeStore [68, 84, 66, 49, 0, 0, 0, 1, 0, 1, 116, 0, 1, 0, 1, 97, 0,
        3, 83, 84, 82, 0, 1, 0, 1, 85, 0, 0, 0, 1, 0, 0, 0, 1, 120] =
      .ok [([116], ⟨[⟨[97], [83, 84, 82], [[85]]⟩], [[([97], [120])]]⟩)] :=
  C1_encode_decode_roundtrip
    [([116], ⟨[⟨[97], [83, 84, 82], [[85]]⟩], [[([97], [120])]]⟩)]
    [68, 84, 66, 49, 0, 0, 0, 1, 0, 1, 116, 0, 1, 0, 1, 97, 0, 3, 83, 84,
      82, 0, 1, 0, 1, 85, 0, 0, 0, 1, 0, 0, 0, 1, 120]
    rfl (by decide) (by decide) (by decide)

end Ditabase
